import Mathlib

/-!
Verification of the reminder scheduling and delivery engine of the
`dailyTasks` task manager (`src/main.py`).

The embedding models:
* Python `datetime` values as a record of calendar fields (`DateTime`).
  CPython stores exactly these broken-down fields; `datetime + timedelta`
  is embedded as iterating the successor functions `nextDate` /
  `nextHour` / `nextMinute`, which compute the same result as CPython's
  ordinal arithmetic for the fixed-duration units.
* `update_recurring_reminder` (src/main.py:910-936) as
  `updateRecurringReminder`.  Its three observable outcomes are an
  executed `UPDATE` with the new time, a silent `return` on an
  unrecognized unit, and a raised `ValueError` when
  `datetime.replace` is given a day that does not exist in the target
  month or a target year outside `MINYEAR..MAXYEAR` (1..9999).  The
  fixed-duration units go through `timedelta` addition, embedded with
  unbounded years.
* the background loop body of `check_reminders` (src/main.py:858-897) as
  `runCycle`, including Python `sqlite3` transaction semantics: an
  `UPDATE` joins the connection's implicit transaction, `conn.commit()`
  persists it, and closing (or leaking) the connection without a commit
  rolls the pending changes back.  The only `conn.commit()` in the cycle
  is on the one-shot branch.
* the consumer tick `process_reminder_queue` (src/main.py:53-61) as
  `processReminderQueue`.
-/

/-- Broken-down calendar time, the fields CPython's `datetime` stores
(`strftime`/`strptime` format `%Y-%m-%d %H:%M:%S`, second precision). -/
structure DateTime where
  year : Nat
  month : Nat
  day : Nat
  hour : Nat
  minute : Nat
  second : Nat
deriving DecidableEq, Repr

/-- Gregorian leap-year rule, as in CPython `datetime._is_leap`. -/
def isLeap (y : Nat) : Bool :=
  y % 4 == 0 && (!(y % 100 == 0) || y % 400 == 0)

/-- Days in a month, as in CPython `datetime._days_in_month`. -/
def daysInMonth (y m : Nat) : Nat :=
  match m with
  | 1 => 31
  | 2 => if isLeap y then 29 else 28
  | 3 => 31
  | 4 => 30
  | 5 => 31
  | 6 => 30
  | 7 => 31
  | 8 => 31
  | 9 => 30
  | 10 => 31
  | 11 => 30
  | 12 => 31
  | _ => 0

/-- The field ranges every CPython `datetime` value satisfies. -/
def Valid (t : DateTime) : Prop :=
  1 ≤ t.year ∧ 1 ≤ t.month ∧ t.month ≤ 12 ∧ 1 ≤ t.day ∧
    t.day ≤ daysInMonth t.year t.month ∧
    t.hour < 24 ∧ t.minute < 60 ∧ t.second < 60

instance (t : DateTime) : Decidable (Valid t) := by
  unfold Valid; infer_instance

/-- Successor date: same time of day, next calendar day. -/
def nextDate (t : DateTime) : DateTime :=
  if t.day < daysInMonth t.year t.month then { t with day := t.day + 1 }
  else if t.month < 12 then { t with month := t.month + 1, day := 1 }
  else { t with year := t.year + 1, month := 1, day := 1 }

/-- Successor hour, with day carry. -/
def nextHour (t : DateTime) : DateTime :=
  if t.hour < 23 then { t with hour := t.hour + 1 }
  else nextDate { t with hour := 0 }

/-- Successor minute, with hour carry. -/
def nextMinute (t : DateTime) : DateTime :=
  if t.minute < 59 then { t with minute := t.minute + 1 }
  else nextHour { t with minute := 0 }

/-- Embedding of `t + timedelta(days=n)`. -/
def addDays (t : DateTime) (n : Nat) : DateTime := nextDate^[n] t

/-- Embedding of `t + timedelta(hours=n)`. -/
def addHours (t : DateTime) (n : Nat) : DateTime := nextHour^[n] t

/-- Embedding of `t + timedelta(minutes=n)`. -/
def addMinutes (t : DateTime) (n : Nat) : DateTime := nextMinute^[n] t

/-- Embedding of `t + timedelta(weeks=n)`, which CPython defines as
`7 * n` days. -/
def addWeeks (t : DateTime) (n : Nat) : DateTime := addDays t (7 * n)

/-- Observable outcome of `update_recurring_reminder`
(src/main.py:910-936): the `UPDATE` is executed with a new time, the
function returns silently on an unrecognized unit, or
`datetime.replace` raises `ValueError`. -/
inductive RearmResult where
  | updated (t : DateTime)
  | skipped
  | valueError
deriving DecidableEq, Repr

/-- The next-time computation of `update_recurring_reminder`
(src/main.py:910-931).  The `months` branch mirrors
`remind_time.replace(year=remind_time.year + (remind_time.month + interval - 1) // 12,
month=(remind_time.month + interval - 1) % 12 + 1)`;
`replace` validates the resulting fields (`_check_date_fields`) and
raises `ValueError` unless the new year lies in `MINYEAR..MAXYEAR`
(1..9999) and the unchanged `day` field exists in the target month
(the computed month is always in 1..12, so its own check never
fires). -/
def updateRecurringReminder (remindTime : DateTime) (interval : Nat)
    (unit : String) : RearmResult :=
  if unit = "minutes" then .updated (addMinutes remindTime interval)
  else if unit = "hours" then .updated (addHours remindTime interval)
  else if unit = "days" then .updated (addDays remindTime interval)
  else if unit = "weeks" then .updated (addWeeks remindTime interval)
  else if unit = "months" then
    let y := remindTime.year + (remindTime.month + interval - 1) / 12
    let m := (remindTime.month + interval - 1) % 12 + 1
    if 1 ≤ y ∧ y ≤ 9999 ∧ 1 ≤ remindTime.day ∧
        remindTime.day ≤ daysInMonth y m then
      .updated { remindTime with year := y, month := m }
    else .valueError
  else .skipped

/-- Days before January 1 of year `y`, as in CPython
`datetime._days_before_year` (`y' = y - 1; y'*365 + y'//4 - y'//100 + y'//400`);
the subtraction is reordered so it cannot truncate in `Nat`
(`(y-1)/100 ≤ (y-1)/4`). -/
def daysBeforeYear (y : Nat) : Nat :=
  365 * (y - 1) + (y - 1) / 4 + (y - 1) / 400 - (y - 1) / 100

/-- Days in year `y` before the first of month `m`, as in CPython
`datetime._days_before_month`. -/
def daysBeforeMonth (y m : Nat) : Nat :=
  (match m with
   | 1 => 0
   | 2 => 31
   | 3 => 59
   | 4 => 90
   | 5 => 120
   | 6 => 151
   | 7 => 181
   | 8 => 212
   | 9 => 243
   | 10 => 273
   | 11 => 304
   | 12 => 334
   | _ => 0) +
  (if 2 < m && isLeap y then 1 else 0)

/-- Proleptic Gregorian ordinal of the date, as in CPython
`datetime.toordinal` (day 1 is 0001-01-01). -/
def toOrd (t : DateTime) : Nat :=
  daysBeforeYear t.year + daysBeforeMonth t.year t.month + t.day

/-- Absolute second count of an instant: the measure in which a
fixed-duration unit is exactly its number of seconds. -/
def dtToSecs (t : DateTime) : Nat :=
  toOrd t * 86400 + t.hour * 3600 + t.minute * 60 + t.second

/-- Comparison the scheduler's SQL `remind_time <= ?` performs: SQLite
compares the stored `%Y-%m-%d %H:%M:%S` strings lexicographically,
which on zero-padded fields is the lexicographic order of the calendar
fields. -/
def dtLe (a b : DateTime) : Bool :=
  if a.year ≠ b.year then decide (a.year < b.year)
  else if a.month ≠ b.month then decide (a.month < b.month)
  else if a.day ≠ b.day then decide (a.day < b.day)
  else if a.hour ≠ b.hour then decide (a.hour < b.hour)
  else if a.minute ≠ b.minute then decide (a.minute < b.minute)
  else decide (a.second ≤ b.second)

/-- A row of the `reminders` table, in the column order the code indexes
the fetched tuple with (`reminder[0]`=id, `[1]`=message,
`[2]`=remind_time, `[3]`=is_recurring, `[4]`=recurring_interval,
`[5]`=recurring_unit, `[6]`=is_completed). -/
structure Reminder where
  id : Nat
  message : String
  remindTime : DateTime
  isRecurring : Bool
  recurringInterval : Nat
  recurringUnit : String
  isCompleted : Bool
deriving DecidableEq, Repr

/-- Console output the reminder thread can produce: the only `print` is
the one in the `except` handler of `check_reminders`. -/
inductive LogEvent where
  | threadError
deriving DecidableEq, Repr

/-- State threaded through one scheduler cycle of `check_reminders`:
`committed` is the persisted database, `pending` the view inside the
background connection's implicit transaction, `queue` the contents of
`self.reminder_queue`, `log` the printed messages. -/
structure SchedSt where
  committed : List Reminder
  pending : List Reminder
  queue : List Reminder
  log : List LogEvent
deriving DecidableEq, Repr

/-- The rows returned by
`SELECT * FROM reminders WHERE is_completed = 0 AND remind_time <= ?`
(src/main.py:869-873), in table order. -/
def dueList (db : List Reminder) (now : DateTime) : List Reminder :=
  db.filter (fun r => !r.isCompleted && dtLe r.remindTime now)

/-- Effect of `UPDATE reminders SET remind_time = ? WHERE id = ?`. -/
def applyUpdateTime (db : List Reminder) (i : Nat) (t : DateTime) :
    List Reminder :=
  db.map (fun r => if r.id = i then { r with remindTime := t } else r)

/-- Effect of `UPDATE reminders SET is_completed = 1 WHERE id = ?`. -/
def applyComplete (db : List Reminder) (i : Nat) : List Reminder :=
  db.map (fun r => if r.id = i then { r with isCompleted := true } else r)

/-- One iteration of the `for reminder in reminders` body
(src/main.py:875-888).  The reminder is first put on the queue; a
recurring one is re-armed through `update_recurring_reminder` (whose
`UPDATE` stays uncommitted), a one-shot one is marked completed and the
transaction is committed.  `fail i` injects a store error raised by the
`UPDATE` for reminder id `i`; an exception (store error or the
`ValueError` from a month rollover onto a nonexistent day) aborts the
iteration with the state reached so far. -/
def processOne (fail : Nat → Bool) (s : SchedSt) (r : Reminder) :
    Except SchedSt SchedSt :=
  let s := { s with queue := s.queue ++ [r] }
  if r.isRecurring then
    match updateRecurringReminder r.remindTime r.recurringInterval
        r.recurringUnit with
    | .updated t =>
        if fail r.id then .error s
        else .ok { s with pending := applyUpdateTime s.pending r.id t }
    | .skipped => .ok s
    | .valueError => .error s
  else
    if fail r.id then .error s
    else
      let p := applyComplete s.pending r.id
      .ok { s with pending := p, committed := p }

/-- The `for` loop over the fetched due reminders; an exception in one
iteration propagates, so the remaining rows are not visited. -/
def processList (fail : Nat → Bool) (s : SchedSt) :
    List Reminder → Except SchedSt SchedSt
  | [] => .ok s
  | r :: rs =>
      match processOne fail s r with
      | .ok s' => processList fail s' rs
      | .error s' => .error s'

/-- One cycle of the `while self.reminder_active` loop
(src/main.py:860-897).  On normal completion `conn.close()` discards
the still-uncommitted transaction; on an exception the handler prints
the error and the leaked connection is likewise closed without a
commit before the next cycle reads the database. -/
def runCycle (fail : Nat → Bool) (db : List Reminder) (now : DateTime)
    (q : List Reminder) : SchedSt :=
  match processList fail ⟨db, db, q, []⟩ (dueList db now) with
  | .ok s => { s with pending := s.committed }
  | .error s =>
      { s with pending := s.committed, log := s.log ++ [.threadError] }

/-- `n` consecutive scheduler cycles; `fail k` is the store-error
injection of cycle `k` and `nows k` the time the cycle reads. -/
def runLoop (fail : Nat → Nat → Bool) (nows : Nat → DateTime)
    (db q : List Reminder) : Nat → SchedSt
  | 0 => ⟨db, db, q, []⟩
  | n + 1 =>
      let s := runLoop fail nows db q n
      let s' := runCycle (fail n) s.committed (nows n) s.queue
      ⟨s'.committed, s'.committed, s'.queue, s.log ++ s'.log⟩

/-- One consumer tick, `process_reminder_queue` (src/main.py:53-61):
drain the queue in FIFO order, calling `show_reminder` (presentation)
and then `load_reminders` (refresh) once per drained item.  Returns the
presented reminders in order and the number of refresh calls. -/
def processReminderQueue : List Reminder → List Reminder × Nat
  | [] => ([], 0)
  | r :: rs =>
      let (p, n) := processReminderQueue rs
      (r :: p, n + 1)


/-- Every month of a plausible month number has at least one day. -/
theorem daysInMonth_pos (y m : Nat) (h1 : 1 ≤ m) (h2 : m ≤ 12) :
    0 < daysInMonth y m := by
  interval_cases m <;> simp [daysInMonth] <;> split <;> omega

/-- Propositional form of the leap-year test. -/
theorem isLeap_iff (y : Nat) :
    isLeap y = true ↔ (y % 4 = 0 ∧ (¬ y % 100 = 0 ∨ y % 400 = 0)) := by
  simp [isLeap]

set_option maxHeartbeats 1000000 in
/-- Going to the next year adds 365 days plus the leap day. -/
theorem daysBeforeYear_step (y : Nat) (hy : 1 ≤ y) :
    daysBeforeYear (y + 1) =
      daysBeforeYear y + 365 + (if isLeap y then 1 else 0) := by
  rcases hL : isLeap y with _ | _
  · rw [if_neg (by decide)]
    have hP := isLeap_iff y
    rw [hL] at hP
    simp only [Bool.false_eq_true, false_iff] at hP
    unfold daysBeforeYear
    omega
  · rw [if_pos rfl]
    have hP := (isLeap_iff y).mp hL
    unfold daysBeforeYear
    omega

/-- `daysBeforeMonth` advances by exactly the length of the month. -/
theorem daysBeforeMonth_step (y m : Nat) (h1 : 1 ≤ m) (h2 : m < 12) :
    daysBeforeMonth y (m + 1) = daysBeforeMonth y m + daysInMonth y m := by
  interval_cases m <;> rcases hL : isLeap y with _ | _ <;>
    simp [daysBeforeMonth, daysInMonth, hL]

/-- `nextDate` preserves the `datetime` field ranges. -/
theorem valid_nextDate {t : DateTime} (h : Valid t) : Valid (nextDate t) := by
  obtain ⟨yy, mm, dd, hh, mi, ss⟩ := t
  simp only [Valid, nextDate] at h ⊢
  split_ifs with hd hm
  · simp only; omega
  · have hp := daysInMonth_pos yy (mm + 1) (by omega) (by omega)
    simp only
    omega
  · have hp : daysInMonth (yy + 1) 1 = 31 := rfl
    simp only
    omega

/-- `nextDate` advances the proleptic ordinal by exactly one. -/
theorem toOrd_nextDate {t : DateTime} (h : Valid t) :
    toOrd (nextDate t) = toOrd t + 1 := by
  obtain ⟨yy, mm, dd, hh, mi, ss⟩ := t
  simp only [Valid] at h
  unfold nextDate
  simp only
  split_ifs with hd hm
  · unfold toOrd; simp only; omega
  · have hs := daysBeforeMonth_step yy mm (by omega) (by omega)
    unfold toOrd; simp only
    omega
  · have hmm : mm = 12 := by omega
    subst hmm
    have hdd : dd = 31 := by
      have h31 : daysInMonth yy 12 = 31 := rfl
      omega
    subst hdd
    have hs := daysBeforeYear_step yy (by omega)
    unfold toOrd daysBeforeMonth
    simp only
    rcases hL : isLeap yy with _ | _ <;> simp [hL] at hs ⊢ <;> omega

/-- `nextDate` leaves the time of day unchanged. -/
theorem nextDate_time (t : DateTime) :
    (nextDate t).hour = t.hour ∧ (nextDate t).minute = t.minute ∧
      (nextDate t).second = t.second := by
  unfold nextDate
  split_ifs <;> exact ⟨rfl, rfl, rfl⟩

/-- `nextDate` advances the absolute second count by one day. -/
theorem dtToSecs_nextDate {t : DateTime} (h : Valid t) :
    dtToSecs (nextDate t) = dtToSecs t + 86400 := by
  have ho := toOrd_nextDate h
  have ht := nextDate_time t
  unfold dtToSecs
  omega

/-- `nextHour` preserves validity and advances time by 3600 seconds. -/
theorem nextHour_props {t : DateTime} (h : Valid t) :
    Valid (nextHour t) ∧ dtToSecs (nextHour t) = dtToSecs t + 3600 := by
  obtain ⟨yy, mm, dd, hh, mi, ss⟩ := t
  unfold nextHour
  simp only
  split_ifs with hh23
  · constructor
    · simp only [Valid] at h ⊢
      omega
    · unfold dtToSecs toOrd
      simp only
      omega
  · have h0 : Valid ⟨yy, mm, dd, 0, mi, ss⟩ := by
      simp only [Valid] at h ⊢
      omega
    refine ⟨valid_nextDate h0, ?_⟩
    have hs := dtToSecs_nextDate h0
    have hh' : hh = 23 := by
      simp only [Valid] at h
      omega
    subst hh'
    unfold dtToSecs toOrd at hs ⊢
    simp only at hs ⊢
    omega

/-- `nextMinute` preserves validity and advances time by 60 seconds. -/
theorem nextMinute_props {t : DateTime} (h : Valid t) :
    Valid (nextMinute t) ∧ dtToSecs (nextMinute t) = dtToSecs t + 60 := by
  obtain ⟨yy, mm, dd, hh, mi, ss⟩ := t
  unfold nextMinute
  simp only
  split_ifs with hm59
  · constructor
    · simp only [Valid] at h ⊢
      omega
    · unfold dtToSecs toOrd
      simp only
      omega
  · have h0 : Valid ⟨yy, mm, dd, hh, 0, ss⟩ := by
      simp only [Valid] at h ⊢
      omega
    have hs := nextHour_props h0
    have hm' : mi = 59 := by
      simp only [Valid] at h
      omega
    subst hm'
    refine ⟨hs.1, ?_⟩
    have hseq := hs.2
    unfold dtToSecs toOrd at hseq ⊢
    simp only at hseq ⊢
    omega

/-- Iterating a step that preserves validity and adds `c` seconds adds
`n * c` seconds. -/
theorem iterate_props (f : DateTime → DateTime) (c : Nat)
    (hf : ∀ t, Valid t → Valid (f t) ∧ dtToSecs (f t) = dtToSecs t + c) :
    ∀ (n : Nat) (t : DateTime), Valid t →
      Valid (f^[n] t) ∧ dtToSecs (f^[n] t) = dtToSecs t + n * c := by
  intro n
  induction n with
  | zero => intro t ht; simpa using ht
  | succ n ih =>
      intro t ht
      rw [Function.iterate_succ_apply]
      obtain ⟨hv, hs⟩ := hf t ht
      obtain ⟨hv', hs'⟩ := ih (f t) hv
      refine ⟨hv', ?_⟩
      rw [hs', hs]
      ring

/-- `addDays` adds exactly `n` fixed-length days. -/
theorem addDays_props {t : DateTime} (n : Nat) (h : Valid t) :
    Valid (addDays t n) ∧ dtToSecs (addDays t n) = dtToSecs t + n * 86400 :=
  iterate_props nextDate 86400
    (fun _ ht => ⟨valid_nextDate ht, dtToSecs_nextDate ht⟩) n t h

/-- `addHours` adds exactly `n` fixed-length hours. -/
theorem addHours_props {t : DateTime} (n : Nat) (h : Valid t) :
    Valid (addHours t n) ∧ dtToSecs (addHours t n) = dtToSecs t + n * 3600 :=
  iterate_props nextHour 3600 (fun _ ht => nextHour_props ht) n t h

/-- `addMinutes` adds exactly `n` fixed-length minutes. -/
theorem addMinutes_props {t : DateTime} (n : Nat) (h : Valid t) :
    Valid (addMinutes t n) ∧ dtToSecs (addMinutes t n) = dtToSecs t + n * 60 :=
  iterate_props nextMinute 60 (fun _ ht => nextMinute_props ht) n t h

/-- `addWeeks` adds exactly `n` fixed-length weeks. -/
theorem addWeeks_props {t : DateTime} (n : Nat) (h : Valid t) :
    Valid (addWeeks t n) ∧ dtToSecs (addWeeks t n) = dtToSecs t + n * 604800 := by
  have hd := addDays_props (t := t) (7 * n) h
  unfold addWeeks
  exact ⟨hd.1, by rw [hd.2]; ring⟩

/-- `daysBeforeMonth` is bounded by a year's length. -/
theorem daysBeforeMonth_le (y m : Nat) (h : m ≤ 12) :
    daysBeforeMonth y m ≤ 335 := by
  interval_cases m <;> rcases hL : isLeap y with _ | _ <;>
    simp [daysBeforeMonth, hL]

/-- `daysBeforeMonth` is strictly monotone in the month. -/
theorem daysBeforeMonth_lt (y m m' : Nat) (h1 : 1 ≤ m) (h : m < m')
    (h2 : m' ≤ 12) : daysBeforeMonth y m < daysBeforeMonth y m' := by
  have hm3 : m ≤ 11 := by omega
  interval_cases m <;> interval_cases m' <;>
    rcases hL : isLeap y with _ | _ <;> simp [daysBeforeMonth, hL]

/-- `daysBeforeYear` never decreases from one year to the next. -/
theorem daysBeforeYear_le_succ (n : Nat) :
    daysBeforeYear n ≤ daysBeforeYear (n + 1) := by
  rcases Nat.eq_zero_or_pos n with h0 | h1
  · subst h0; decide
  · have hs := daysBeforeYear_step n h1
    rcases hL : isLeap n with _ | _ <;> simp [hL] at hs <;> omega

/-- `daysBeforeYear` is monotone. -/
theorem daysBeforeYear_mono (y y' : Nat) (h : y ≤ y') :
    daysBeforeYear y ≤ daysBeforeYear y' := by
  induction y', h using Nat.le_induction with
  | base => exact Nat.le_refl _
  | succ n hn ih => exact Nat.le_trans ih (daysBeforeYear_le_succ n)

/-- A later year starts at least 365 days later. -/
theorem daysBeforeYear_gap (y y' : Nat) (hy : 1 ≤ y) (h : y < y') :
    daysBeforeYear y + 365 ≤ daysBeforeYear y' := by
  have h1 := daysBeforeYear_step y hy
  have h2 := daysBeforeYear_mono (y + 1) y' h
  rcases hL : isLeap y with _ | _ <;> simp [hL] at h1 <;> omega

/-- The year\month prefix sum of `toordinal` is strictly monotone in the
calendar order of `(year, month)`. -/
theorem yearMonth_lt (y m y' m' : Nat) (hy : 1 ≤ y) (hm1 : 1 ≤ m)
    (hm2 : m ≤ 12) (hm2' : m' ≤ 12)
    (h : 12 * y + m < 12 * y' + m') :
    daysBeforeYear y + daysBeforeMonth y m <
      daysBeforeYear y' + daysBeforeMonth y' m' := by
  have hyy : y ≤ y' := by omega
  rcases Nat.lt_or_ge y y' with hlt | hge
  · have hg := daysBeforeYear_gap y y' hy hlt
    have hb := daysBeforeMonth_le y m hm2
    omega
  · have heq : y = y' := by omega
    subst heq
    have hmm : m < m' := by omega
    have := daysBeforeMonth_lt y m m' hm1 hmm hm2'
    omega

/-- Unfolding of the `months` branch of `update_recurring_reminder`. -/
theorem urr_months (t : DateTime) (n : Nat) :
    updateRecurringReminder t n "months" =
      if 1 ≤ t.year + (t.month + n - 1) / 12 ∧
          t.year + (t.month + n - 1) / 12 ≤ 9999 ∧ 1 ≤ t.day ∧
          t.day ≤ daysInMonth (t.year + (t.month + n - 1) / 12)
            ((t.month + n - 1) % 12 + 1) then
        RearmResult.updated
          { t with year := t.year + (t.month + n - 1) / 12,
                   month := (t.month + n - 1) % 12 + 1 }
      else RearmResult.valueError := rfl

/-- Unfolding of the fixed-duration branches of
`update_recurring_reminder`. -/
theorem urr_fixed (t : DateTime) (n : Nat) :
    updateRecurringReminder t n "minutes" = .updated (addMinutes t n) ∧
    updateRecurringReminder t n "hours" = .updated (addHours t n) ∧
    updateRecurringReminder t n "days" = .updated (addDays t n) ∧
    updateRecurringReminder t n "weeks" = .updated (addWeeks t n) :=
  ⟨rfl, rfl, rfl, rfl⟩

/-- C4: for every recurring reminder, every supported unit in
{minutes, hours, days, weeks, months} and every interval ≥ 1, the
computed next time is strictly greater than the base `remind_time`. -/
theorem claim_C4 (t : DateTime) (n : Nat) (unit : String) (u : DateTime)
    (h : Valid t) (hn : 1 ≤ n)
    (hu : unit = "minutes" ∨ unit = "hours" ∨ unit = "days" ∨
      unit = "weeks" ∨ unit = "months")
    (hr : updateRecurringReminder t n unit = RearmResult.updated u) :
    dtToSecs t < dtToSecs u := by
  obtain ⟨yy, mm, dd, hh, mi, ss⟩ := t
  rcases hu with h1 | h1 | h1 | h1 | h1 <;> subst h1
  · rw [(urr_fixed _ n).1] at hr
    injection hr with h2
    subst h2
    have := (addMinutes_props (t := ⟨yy, mm, dd, hh, mi, ss⟩) n h).2
    omega
  · rw [(urr_fixed _ n).2.1] at hr
    injection hr with h2
    subst h2
    have := (addHours_props (t := ⟨yy, mm, dd, hh, mi, ss⟩) n h).2
    omega
  · rw [(urr_fixed _ n).2.2.1] at hr
    injection hr with h2
    subst h2
    have := (addDays_props (t := ⟨yy, mm, dd, hh, mi, ss⟩) n h).2
    omega
  · rw [(urr_fixed _ n).2.2.2] at hr
    injection hr with h2
    subst h2
    have := (addWeeks_props (t := ⟨yy, mm, dd, hh, mi, ss⟩) n h).2
    omega
  · rw [urr_months] at hr
    simp only [Valid] at h
    split at hr
    · injection hr with h2
      subst h2
      have hlt := yearMonth_lt yy mm (yy + (mm + n - 1) / 12)
        ((mm + n - 1) % 12 + 1) (by omega) (by omega) (by omega)
        (by omega) (by omega)
      unfold dtToSecs toOrd
      dsimp only
      omega
    · exact (RearmResult.noConfusion hr)

/-- Witness for C4 at 2025-01-31, one month ahead fails but two months
is March, strictly later. -/
theorem claim_C4_witness :
    Valid ⟨2025, 1, 31, 0, 0, 0⟩ ∧
      updateRecurringReminder ⟨2025, 1, 31, 0, 0, 0⟩ 2 "months" =
        RearmResult.updated ⟨2025, 3, 31, 0, 0, 0⟩ ∧
      dtToSecs ⟨2025, 1, 31, 0, 0, 0⟩ < dtToSecs ⟨2025, 3, 31, 0, 0, 0⟩ :=
  ⟨by decide, by decide,
    claim_C4 ⟨2025, 1, 31, 0, 0, 0⟩ 2 "months" ⟨2025, 3, 31, 0, 0, 0⟩
      (by decide) (by decide) (Or.inr (Or.inr (Or.inr (Or.inr rfl))))
      (by decide)⟩

/-- C6: for unit `months` the next time is computed with
`m0 = month - 1`, `total = m0 + interval`, month `total mod 12`
(1-based again), year `y0 + total div 12`, all other fields kept. -/
theorem claim_C6 (t : DateTime) (n : Nat) (u : DateTime)
    (hm : 1 ≤ t.month)
    (hr : updateRecurringReminder t n "months" = RearmResult.updated u) :
    u.year = t.year + (t.month - 1 + n) / 12 ∧
    u.month = (t.month - 1 + n) % 12 + 1 ∧
    u.day = t.day ∧ u.hour = t.hour ∧ u.minute = t.minute ∧
    u.second = t.second := by
  obtain ⟨yy, mm, dd, hh, mi, ss⟩ := t
  rw [urr_months] at hr
  dsimp only at hr hm ⊢
  have heq : mm + n - 1 = mm - 1 + n := by omega
  split at hr
  · injection hr with h2
    subst h2
    dsimp only
    rw [heq]
    exact ⟨rfl, rfl, rfl, rfl, rfl, rfl⟩
  · exact (RearmResult.noConfusion hr)

/-- Witness for C6: 2025-11-15 plus 3 months lands on 2026-02-15,
wrapping the 0-based month total 13 into year 2026, month 2. -/
theorem claim_C6_witness :
    updateRecurringReminder ⟨2025, 11, 15, 10, 20, 30⟩ 3 "months" =
      RearmResult.updated ⟨2026, 2, 15, 10, 20, 30⟩ ∧
    (2026 : Nat) = 2025 + (11 - 1 + 3) / 12 ∧
    (2 : Nat) = (11 - 1 + 3) % 12 + 1 :=
  ⟨by decide,
    by
      have h := claim_C6 ⟨2025, 11, 15, 10, 20, 30⟩ 3
        ⟨2026, 2, 15, 10, 20, 30⟩ (by decide) (by decide)
      exact h.1,
    by
      have h := claim_C6 ⟨2025, 11, 15, 10, 20, 30⟩ 3
        ⟨2026, 2, 15, 10, 20, 30⟩ (by decide) (by decide)
      exact h.2.1⟩

/-- C7: for every base time and interval n ≥ 1 the next time for
`days` is `t + n` days of 86400 seconds, and analogously `minutes`,
`hours` and `weeks` add exactly `n` fixed-duration units. -/
theorem claim_C7 (t : DateTime) (n : Nat) (h : Valid t) (hn : 1 ≤ n) :
    updateRecurringReminder t n "days" = .updated (addDays t n) ∧
    dtToSecs (addDays t n) = dtToSecs t + n * 86400 ∧
    updateRecurringReminder t n "minutes" = .updated (addMinutes t n) ∧
    dtToSecs (addMinutes t n) = dtToSecs t + n * 60 ∧
    updateRecurringReminder t n "hours" = .updated (addHours t n) ∧
    dtToSecs (addHours t n) = dtToSecs t + n * 3600 ∧
    updateRecurringReminder t n "weeks" = .updated (addWeeks t n) ∧
    dtToSecs (addWeeks t n) = dtToSecs t + n * 604800 :=
  ⟨rfl, (addDays_props n h).2, rfl, (addMinutes_props n h).2, rfl,
    (addHours_props n h).2, rfl, (addWeeks_props n h).2⟩

/-- Witness for C7 at 2025-12-31 23:59:59, crossing a year boundary. -/
theorem claim_C7_witness :
    Valid ⟨2025, 12, 31, 23, 59, 59⟩ ∧
      dtToSecs (addDays ⟨2025, 12, 31, 23, 59, 59⟩ 1) =
        dtToSecs ⟨2025, 12, 31, 23, 59, 59⟩ + 1 * 86400 ∧
      dtToSecs (addMinutes ⟨2025, 12, 31, 23, 59, 59⟩ 1) =
        dtToSecs ⟨2025, 12, 31, 23, 59, 59⟩ + 1 * 60 :=
  ⟨by decide,
    (claim_C7 ⟨2025, 12, 31, 23, 59, 59⟩ 1 (by decide) (by decide)).2.1,
    (claim_C7 ⟨2025, 12, 31, 23, 59, 59⟩ 1 (by decide) (by decide)).2.2.2.1⟩

/-- C10 counterexample: base 9999-12-15, interval 1.  The kept day 15
exists in the target month (January has 31 days), yet the computation
raises `ValueError`: the target year 10000 exceeds `datetime.MAXYEAR`,
so the claim that it returns normally whenever the day exists in the
target month is false. -/
theorem claim_C10_counterexample :
    (15 : Nat) ≤ daysInMonth (9999 + (12 + 1 - 1) / 12)
      ((12 + 1 - 1) % 12 + 1) ∧
    Valid ⟨9999, 12, 15, 0, 0, 0⟩ ∧
    updateRecurringReminder ⟨9999, 12, 15, 0, 0, 0⟩ 1 "months" =
      RearmResult.valueError := by
  refine ⟨by decide, by decide, by decide⟩

/-- C10 as amended: the month rollover raises `ValueError` instead of
returning a clamped or otherwise adjusted date whenever the kept
day-of-month does not exist in the computed target month or the
computed target year exceeds 9999 (`datetime.MAXYEAR`); for every
valid base whose day exists in the target month and whose target year
stays within range it returns the replaced date. -/
theorem claim_C10_amended (t : DateTime) (n : Nat) (h : Valid t) :
    (daysInMonth (t.year + (t.month + n - 1) / 12)
        ((t.month + n - 1) % 12 + 1) < t.day ∨
      9999 < t.year + (t.month + n - 1) / 12 →
      updateRecurringReminder t n "months" = RearmResult.valueError) ∧
    (t.day ≤ daysInMonth (t.year + (t.month + n - 1) / 12)
        ((t.month + n - 1) % 12 + 1) →
      t.year + (t.month + n - 1) / 12 ≤ 9999 →
      updateRecurringReminder t n "months" =
        RearmResult.updated
          { t with year := t.year + (t.month + n - 1) / 12,
                   month := (t.month + n - 1) % 12 + 1 }) := by
  simp only [Valid] at h
  constructor
  · intro hd
    rw [urr_months, if_neg (by omega)]
  · intro hd hy
    rw [urr_months, if_pos (by omega)]

/-- Witness for C10 as amended: January 31 plus one month targets
February 2025, which has no day 31, so `replace` raises; day 15
returns normally. -/
theorem claim_C10_witness :
    (updateRecurringReminder ⟨2025, 1, 31, 0, 0, 0⟩ 1 "months" =
      RearmResult.valueError) ∧
    (updateRecurringReminder ⟨2025, 1, 15, 0, 0, 0⟩ 1 "months" =
      RearmResult.updated ⟨2025, 2, 15, 0, 0, 0⟩) :=
  ⟨(claim_C10_amended ⟨2025, 1, 31, 0, 0, 0⟩ 1 (by decide)).1
      (Or.inl (by decide)),
    (claim_C10_amended ⟨2025, 1, 15, 0, 0, 0⟩ 1 (by decide)).2
      (by decide) (by decide)⟩

/-- State carried by either outcome of an `Except` step. -/
def outSt : Except SchedSt SchedSt → SchedSt
  | .ok s => s
  | .error s => s

/-- A successfully resolved one-shot reminder: queued, then marked
completed, then committed. -/
theorem processOne_oneShot_ok (fail : Nat → Bool) (s : SchedSt)
    (r : Reminder) (h1 : r.isRecurring = false)
    (h2 : fail r.id = false) :
    processOne fail s r =
      Except.ok ⟨applyComplete s.pending r.id, applyComplete s.pending r.id,
        s.queue ++ [r], s.log⟩ := by
  simp [processOne, h1, h2]

/-- A one-shot reminder whose completing `UPDATE` raises a store error:
it was already queued, nothing else happened. -/
theorem processOne_oneShot_fail (fail : Nat → Bool) (s : SchedSt)
    (r : Reminder) (h1 : r.isRecurring = false)
    (h2 : fail r.id = true) :
    processOne fail s r =
      Except.error { s with queue := s.queue ++ [r] } := by
  simp [processOne, h1, h2]

/-- A successfully re-armed recurring reminder: queued, and the new
time written into the still-open transaction only. -/
theorem processOne_rec_ok (fail : Nat → Bool) (s : SchedSt) (r : Reminder)
    (u : DateTime) (h1 : r.isRecurring = true)
    (h2 : updateRecurringReminder r.remindTime r.recurringInterval
      r.recurringUnit = RearmResult.updated u)
    (h3 : fail r.id = false) :
    processOne fail s r =
      Except.ok ⟨s.committed, applyUpdateTime s.pending r.id u,
        s.queue ++ [r], s.log⟩ := by
  simp [processOne, h1, h2, h3]

/-- A recurring reminder whose re-arming `UPDATE` raises a store
error. -/
theorem processOne_rec_fail (fail : Nat → Bool) (s : SchedSt)
    (r : Reminder) (u : DateTime) (h1 : r.isRecurring = true)
    (h2 : updateRecurringReminder r.remindTime r.recurringInterval
      r.recurringUnit = RearmResult.updated u)
    (h3 : fail r.id = true) :
    processOne fail s r =
      Except.error { s with queue := s.queue ++ [r] } := by
  simp [processOne, h1, h2, h3]

/-- A recurring reminder with an unrecognized unit: queued, then the
silent `return` leaves every piece of state untouched. -/
theorem processOne_rec_skip (fail : Nat → Bool) (s : SchedSt)
    (r : Reminder) (h1 : r.isRecurring = true)
    (h2 : updateRecurringReminder r.remindTime r.recurringInterval
      r.recurringUnit = RearmResult.skipped) :
    processOne fail s r = Except.ok { s with queue := s.queue ++ [r] } := by
  simp [processOne, h1, h2]

/-- A recurring reminder whose month rollover raises `ValueError`. -/
theorem processOne_rec_verr (fail : Nat → Bool) (s : SchedSt)
    (r : Reminder) (h1 : r.isRecurring = true)
    (h2 : updateRecurringReminder r.remindTime r.recurringInterval
      r.recurringUnit = RearmResult.valueError) :
    processOne fail s r =
      Except.error { s with queue := s.queue ++ [r] } := by
  simp [processOne, h1, h2]

/-- Whatever happens to a reminder, it is pushed onto the queue first,
so both outcomes carry the extended queue. -/
theorem processOne_queue (fail : Nat → Bool) (s : SchedSt) (r : Reminder) :
    (outSt (processOne fail s r)).queue = s.queue ++ [r] := by
  rcases hR : r.isRecurring with _ | _
  · rcases hF : fail r.id with _ | _
    · rw [processOne_oneShot_ok fail s r hR hF]; rfl
    · rw [processOne_oneShot_fail fail s r hR hF]; rfl
  · rcases hU : updateRecurringReminder r.remindTime r.recurringInterval
        r.recurringUnit with u | _ | _
    · rcases hF : fail r.id with _ | _
      · rw [processOne_rec_ok fail s r u hR hU hF]; rfl
      · rw [processOne_rec_fail fail s r u hR hU hF]; rfl
    · rw [processOne_rec_skip fail s r hR hU]; rfl
    · rw [processOne_rec_verr fail s r hR hU]; rfl

/-- Every queue snapshot a cycle produces is a prefix of the due list
fetched before any mutation. -/
theorem processList_queue (fail : Nat → Bool) :
    ∀ (l : List Reminder) (s : SchedSt),
      ∃ k, (outSt (processList fail s l)).queue = s.queue ++ l.take k := by
  intro l
  induction l with
  | nil => intro s; exact ⟨0, by simp [processList, outSt]⟩
  | cons r rs ih =>
      intro s
      have hq := processOne_queue fail s r
      unfold processList
      cases hpo : processOne fail s r with
      | ok s1 =>
          obtain ⟨k, hk⟩ := ih s1
          rw [hpo] at hq
          simp only [outSt] at hq
          exact ⟨k + 1, by simp [hk, hq]⟩
      | error s1 =>
          rw [hpo] at hq
          simp only [outSt] at hq
          exact ⟨1, by simp [outSt, hq]⟩

/-- Definitional unfolding of one `for` iteration. -/
theorem processList_cons (fail : Nat → Bool) (s : SchedSt) (r : Reminder)
    (rs : List Reminder) :
    processList fail s (r :: rs) =
      match processOne fail s r with
      | .ok s' => processList fail s' rs
      | .error s' => .error s' := rfl

/-- The `for` loop processes a concatenation left to right. -/
theorem processList_append (fail : Nat → Bool) (l1 l2 : List Reminder) :
    ∀ s, processList fail s (l1 ++ l2) =
      match processList fail s l1 with
      | .ok s' => processList fail s' l2
      | .error e => .error e := by
  induction l1 with
  | nil => intro s; rfl
  | cons r rs ih =>
      intro s
      rw [List.cons_append, processList_cons, processList_cons]
      cases hpo : processOne fail s r with
      | ok s1 => exact ih s1
      | error s1 => rfl

/-- A loop run that ends normally queued exactly the rows it visited. -/
theorem processList_ok_queue (fail : Nat → Bool) :
    ∀ (l : List Reminder) (s s' : SchedSt),
      processList fail s l = .ok s' → s'.queue = s.queue ++ l := by
  intro l
  induction l with
  | nil => intro s s' h; cases h; simp [processList]
  | cons r rs ih =>
      intro s s' h
      have hq := processOne_queue fail s r
      unfold processList at h
      cases hpo : processOne fail s r with
      | ok s1 =>
          rw [hpo] at h hq
          simp only [outSt] at hq
          have := ih s1 s' h
          simp [this, hq]
      | error s1 => rw [hpo] at h; cases h

/-- If no visited reminder can raise (no store failure, no `ValueError`
month rollover), the `for` loop runs to completion. -/
theorem processList_ok_exists (fail : Nat → Bool) :
    ∀ (l : List Reminder) (s : SchedSt),
      (∀ x ∈ l, fail x.id = false) →
      (∀ x ∈ l, x.isRecurring = true →
        updateRecurringReminder x.remindTime x.recurringInterval
          x.recurringUnit ≠ RearmResult.valueError) →
      ∃ s', processList fail s l = .ok s' := by
  intro l
  induction l with
  | nil => intro s _ _; exact ⟨s, rfl⟩
  | cons r rs ih =>
      intro s hf hok
      have hfr : fail r.id = false := hf r (by simp)
      have hstep : ∃ s1, processOne fail s r = .ok s1 := by
        rcases hR : r.isRecurring with _ | _
        · exact ⟨_, processOne_oneShot_ok fail s r hR hfr⟩
        · rcases hU : updateRecurringReminder r.remindTime
              r.recurringInterval r.recurringUnit with u | _ | _
          · exact ⟨_, processOne_rec_ok fail s r u hR hU hfr⟩
          · exact ⟨_, processOne_rec_skip fail s r hR hU⟩
          · exact absurd hU (hok r (by simp) hR)
      obtain ⟨s1, hs1⟩ := hstep
      obtain ⟨s', hs'⟩ := ih s1 (fun x hx => hf x (by simp [hx]))
        (fun x hx => hok x (by simp [hx]))
      refine ⟨s', ?_⟩
      unfold processList
      rw [hs1]
      exact hs'

/-- Every row with the given id is marked completed. -/
def CompletedAt (i : Nat) (l : List Reminder) : Prop :=
  ∀ x ∈ l, x.id = i → x.isCompleted = true

/-- Rewriting a remind time never clears a completion flag. -/
theorem completedAt_applyUpdateTime {i : Nat} {l : List Reminder}
    (j : Nat) (u : DateTime) (h : CompletedAt i l) :
    CompletedAt i (applyUpdateTime l j u) := by
  intro y hy hid
  simp only [applyUpdateTime, List.mem_map] at hy
  obtain ⟨x, hx, hxy⟩ := hy
  by_cases hj : x.id = j
  · rw [if_pos hj] at hxy
    subst hxy
    exact h x hx hid
  · rw [if_neg hj] at hxy
    subst hxy
    exact h x hx hid

/-- Completing some reminder never clears a completion flag. -/
theorem completedAt_applyComplete {i : Nat} {l : List Reminder}
    (j : Nat) (h : CompletedAt i l) : CompletedAt i (applyComplete l j) := by
  intro y hy hid
  simp only [applyComplete, List.mem_map] at hy
  obtain ⟨x, hx, hxy⟩ := hy
  by_cases hj : x.id = j
  · rw [if_pos hj] at hxy
    subst hxy
    rfl
  · rw [if_neg hj] at hxy
    subst hxy
    exact h x hx hid

/-- Completing id `i` establishes completion of every row with id `i`. -/
theorem completedAt_applyComplete_self (i : Nat) (l : List Reminder) :
    CompletedAt i (applyComplete l i) := by
  intro y hy hid
  simp only [applyComplete, List.mem_map] at hy
  obtain ⟨x, hx, hxy⟩ := hy
  by_cases hj : x.id = i
  · rw [if_pos hj] at hxy
    subst hxy
    rfl
  · rw [if_neg hj] at hxy
    subst hxy
    exact absurd hid hj

/-- Completion of an id in both the transaction view and the committed
database survives one loop iteration, whatever its outcome. -/
theorem processOne_completedAt {i : Nat} (fail : Nat → Bool) (s : SchedSt)
    (r : Reminder) (h1 : CompletedAt i s.pending)
    (h2 : CompletedAt i s.committed) :
    CompletedAt i (outSt (processOne fail s r)).pending ∧
      CompletedAt i (outSt (processOne fail s r)).committed := by
  rcases hR : r.isRecurring with _ | _
  · rcases hF : fail r.id with _ | _
    · rw [processOne_oneShot_ok fail s r hR hF]
      exact ⟨completedAt_applyComplete r.id h1,
        completedAt_applyComplete r.id h1⟩
    · rw [processOne_oneShot_fail fail s r hR hF]
      exact ⟨h1, h2⟩
  · rcases hU : updateRecurringReminder r.remindTime r.recurringInterval
        r.recurringUnit with u | _ | _
    · rcases hF : fail r.id with _ | _
      · rw [processOne_rec_ok fail s r u hR hU hF]
        exact ⟨completedAt_applyUpdateTime r.id u h1, h2⟩
      · rw [processOne_rec_fail fail s r u hR hU hF]
        exact ⟨h1, h2⟩
    · rw [processOne_rec_skip fail s r hR hU]
      exact ⟨h1, h2⟩
    · rw [processOne_rec_verr fail s r hR hU]
      exact ⟨h1, h2⟩

/-- Completion of an id survives the rest of the loop. -/
theorem processList_completedAt {i : Nat} (fail : Nat → Bool) :
    ∀ (l : List Reminder) (s : SchedSt),
      CompletedAt i s.pending → CompletedAt i s.committed →
      CompletedAt i (outSt (processList fail s l)).pending ∧
        CompletedAt i (outSt (processList fail s l)).committed := by
  intro l
  induction l with
  | nil => intro s h1 h2; exact ⟨h1, h2⟩
  | cons r rs ih =>
      intro s h1 h2
      have hstep := processOne_completedAt fail s r h1 h2
      rw [processList_cons]
      cases hpo : processOne fail s r with
      | ok s1 =>
          rw [hpo] at hstep
          exact ih s1 hstep.1 hstep.2
      | error s1 =>
          rw [hpo] at hstep
          exact hstep

/-- C8: every snapshot a cycle pushes onto the delivery queue is the
reminder's pre-mutation state: the queue grows exactly by a prefix of
the due list fetched before any `UPDATE` of the cycle ran, so the
consumer observes the state each reminder had when it fired. -/
theorem claim_C8 (fail : Nat → Bool) (db : List Reminder) (now : DateTime)
    (q : List Reminder) :
    ∃ k, (runCycle fail db now q).queue = q ++ (dueList db now).take k := by
  obtain ⟨k, hk⟩ := processList_queue fail (dueList db now) ⟨db, db, q, []⟩
  refine ⟨k, ?_⟩
  unfold runCycle
  cases hpl : processList fail ⟨db, db, q, []⟩ (dueList db now) with
  | ok s =>
      rw [hpl] at hk
      simpa [outSt] using hk
  | error s =>
      rw [hpl] at hk
      simpa [outSt] using hk

/-- C5: a due one-shot reminder is delivered exactly once by an
error-free cycle and its persisted row is marked completed. -/
theorem claim_C5 (db : List Reminder) (now : DateTime) (r : Reminder)
    (hnd : (db.map Reminder.id).Nodup) (hmem : r ∈ db)
    (hnc : r.isCompleted = false) (hdue : dtLe r.remindTime now = true)
    (hos : r.isRecurring = false)
    (hok : ∀ x ∈ dueList db now, x.isRecurring = true →
      updateRecurringReminder x.remindTime x.recurringInterval
        x.recurringUnit ≠ RearmResult.valueError) :
    (runCycle (fun _ => false) db now []).queue.count r = 1 ∧
    ∀ x ∈ (runCycle (fun _ => false) db now []).committed,
      x.id = r.id → x.isCompleted = true := by
  have hrl : r ∈ dueList db now :=
    List.mem_filter.mpr ⟨hmem, by simp [hnc, hdue]⟩
  obtain ⟨s', hfull⟩ := processList_ok_exists (fun _ => false)
    (dueList db now) ⟨db, db, [], []⟩ (fun _ _ => rfl) hok
  have hq := processList_ok_queue (fun _ => false) (dueList db now)
    ⟨db, db, [], []⟩ s' hfull
  have hcount : (dueList db now).count r = 1 := by
    have hdbn : db.Nodup := List.Nodup.of_map _ hnd
    have h1 : db.count r = 1 := List.count_eq_one_of_mem hdbn hmem
    unfold dueList
    rw [List.count_filter (by simp [hnc, hdue])]
    exact h1
  have hcompleted : CompletedAt r.id s'.pending ∧
      CompletedAt r.id s'.committed := by
    obtain ⟨l1, l2, hsplit⟩ := List.append_of_mem hrl
    have hs' := hfull
    rw [hsplit, processList_append] at hs'
    cases hpl1 : processList (fun _ => false) ⟨db, db, [], []⟩ l1 with
    | error e => rw [hpl1] at hs'; cases hs'
    | ok s1 =>
        rw [hpl1] at hs'
        have hs2 : processList (fun _ => false) s1 (r :: l2) =
            Except.ok s' := hs'
        rw [processList_cons, processOne_oneShot_ok _ _ _ hos rfl] at hs2
        have hinv := processList_completedAt (fun _ => false) l2
          ⟨applyComplete s1.pending r.id, applyComplete s1.pending r.id,
            s1.queue ++ [r], s1.log⟩
          (completedAt_applyComplete_self r.id s1.pending)
          (completedAt_applyComplete_self r.id s1.pending)
        have hs3 : processList (fun _ => false)
            ⟨applyComplete s1.pending r.id, applyComplete s1.pending r.id,
              s1.queue ++ [r], s1.log⟩ l2 = Except.ok s' := hs2
        rw [hs3] at hinv
        exact hinv
  unfold runCycle
  rw [hfull]
  constructor
  · show s'.queue.count r = 1
    rw [hq]
    simpa using hcount
  · exact hcompleted.2

/-- Witness for C5: a single due one-shot reminder is queued once and
its stored row is completed after the cycle. -/
theorem claim_C5_witness :
    (runCycle (fun _ => false)
        [⟨7, "", ⟨2025, 1, 2, 9, 59, 59⟩, false, 0, "", false⟩]
        ⟨2025, 1, 2, 10, 0, 0⟩ []).queue.count
      ⟨7, "", ⟨2025, 1, 2, 9, 59, 59⟩, false, 0, "", false⟩ = 1 ∧
    ∀ x ∈ (runCycle (fun _ => false)
        [⟨7, "", ⟨2025, 1, 2, 9, 59, 59⟩, false, 0, "", false⟩]
        ⟨2025, 1, 2, 10, 0, 0⟩ []).committed,
      x.id = 7 → x.isCompleted = true :=
  claim_C5 [⟨7, "", ⟨2025, 1, 2, 9, 59, 59⟩, false, 0, "", false⟩]
    ⟨2025, 1, 2, 10, 0, 0⟩
    ⟨7, "", ⟨2025, 1, 2, 9, 59, 59⟩, false, 0, "", false⟩
    (by decide) (by decide) rfl (by decide) rfl
    (by decide)

/-- C2 counterexample: two due one-shot reminders; the store `UPDATE`
for the first raises.  The error is caught (the cycle ends in the
handler, logging once), but the second due reminder of the same cycle
is neither queued nor completed — the claim that the remaining due
reminders of the cycle are still processed fails. -/
theorem claim_C2_counterexample :
    ⟨2, "", ⟨2025, 1, 2, 9, 0, 0⟩, false, 0, "", false⟩ ∈
      dueList [⟨1, "", ⟨2025, 1, 2, 9, 0, 0⟩, false, 0, "", false⟩,
        ⟨2, "", ⟨2025, 1, 2, 9, 0, 0⟩, false, 0, "", false⟩]
        ⟨2025, 1, 2, 10, 0, 0⟩ ∧
    (runCycle (fun i => i == 1)
        [⟨1, "", ⟨2025, 1, 2, 9, 0, 0⟩, false, 0, "", false⟩,
          ⟨2, "", ⟨2025, 1, 2, 9, 0, 0⟩, false, 0, "", false⟩]
        ⟨2025, 1, 2, 10, 0, 0⟩ []).queue =
      [⟨1, "", ⟨2025, 1, 2, 9, 0, 0⟩, false, 0, "", false⟩] ∧
    (runCycle (fun i => i == 1)
        [⟨1, "", ⟨2025, 1, 2, 9, 0, 0⟩, false, 0, "", false⟩,
          ⟨2, "", ⟨2025, 1, 2, 9, 0, 0⟩, false, 0, "", false⟩]
        ⟨2025, 1, 2, 10, 0, 0⟩ []).committed =
      [⟨1, "", ⟨2025, 1, 2, 9, 0, 0⟩, false, 0, "", false⟩,
        ⟨2, "", ⟨2025, 1, 2, 9, 0, 0⟩, false, 0, "", false⟩] ∧
    (runCycle (fun i => i == 1)
        [⟨1, "", ⟨2025, 1, 2, 9, 0, 0⟩, false, 0, "", false⟩,
          ⟨2, "", ⟨2025, 1, 2, 9, 0, 0⟩, false, 0, "", false⟩]
        ⟨2025, 1, 2, 10, 0, 0⟩ []).log = [LogEvent.threadError] := by
  refine ⟨by decide, by decide, by decide, by decide⟩

/-- C2 as amended: a store error while resolving one due reminder is
caught (the cycle ends in the `except` handler, which logs it, with the
uncommitted transaction discarded) and the polling loop goes on to run
the next cycle unconditionally; but the due reminders after the failing
one in the same cycle are skipped: the queue ends exactly at the
failing reminder. -/
theorem claim_C2_amended (fail : Nat → Bool) (db : List Reminder)
    (now : DateTime) (q l1 l2 : List Reminder) (r : Reminder)
    (s1 s2 : SchedSt)
    (hdue : dueList db now = l1 ++ r :: l2)
    (h1 : processList fail ⟨db, db, q, []⟩ l1 = Except.ok s1)
    (h2 : processOne fail s1 r = Except.error s2) :
    runCycle fail db now q =
      { s2 with pending := s2.committed,
                log := s2.log ++ [LogEvent.threadError] } ∧
    s2.queue = s1.queue ++ [r] ∧
    (∀ (fails : Nat → Nat → Bool) (nows : Nat → DateTime)
      (db' q' : List Reminder) (n : Nat),
      runLoop fails nows db' q' (n + 1) =
        ⟨(runCycle (fails n) (runLoop fails nows db' q' n).committed
            (nows n) (runLoop fails nows db' q' n).queue).committed,
          (runCycle (fails n) (runLoop fails nows db' q' n).committed
            (nows n) (runLoop fails nows db' q' n).queue).committed,
          (runCycle (fails n) (runLoop fails nows db' q' n).committed
            (nows n) (runLoop fails nows db' q' n).queue).queue,
          (runLoop fails nows db' q' n).log ++
            (runCycle (fails n) (runLoop fails nows db' q' n).committed
              (nows n) (runLoop fails nows db' q' n).queue).log⟩) := by
  have hq := processOne_queue fail s1 r
  rw [h2] at hq
  simp only [outSt] at hq
  refine ⟨?_, hq, fun _ _ _ _ _ => rfl⟩
  have hfull : processList fail ⟨db, db, q, []⟩ (dueList db now) =
      Except.error s2 := by
    rw [hdue, processList_append, h1]
    show processList fail s1 (r :: l2) = Except.error s2
    rw [processList_cons, h2]
  unfold runCycle
  rw [hfull]

/-- Witness for C2 as amended, at the counterexample's input: the
failure hits the first of two due one-shot reminders. -/
theorem claim_C2_witness :
    runCycle (fun i => i == 1)
        [⟨1, "", ⟨2025, 1, 2, 9, 0, 0⟩, false, 0, "", false⟩,
          ⟨2, "", ⟨2025, 1, 2, 9, 0, 0⟩, false, 0, "", false⟩]
        ⟨2025, 1, 2, 10, 0, 0⟩ [] =
      ⟨[⟨1, "", ⟨2025, 1, 2, 9, 0, 0⟩, false, 0, "", false⟩,
          ⟨2, "", ⟨2025, 1, 2, 9, 0, 0⟩, false, 0, "", false⟩],
        [⟨1, "", ⟨2025, 1, 2, 9, 0, 0⟩, false, 0, "", false⟩,
          ⟨2, "", ⟨2025, 1, 2, 9, 0, 0⟩, false, 0, "", false⟩],
        [⟨1, "", ⟨2025, 1, 2, 9, 0, 0⟩, false, 0, "", false⟩],
        [LogEvent.threadError]⟩ :=
  (claim_C2_amended (fun i => i == 1)
    [⟨1, "", ⟨2025, 1, 2, 9, 0, 0⟩, false, 0, "", false⟩,
      ⟨2, "", ⟨2025, 1, 2, 9, 0, 0⟩, false, 0, "", false⟩]
    ⟨2025, 1, 2, 10, 0, 0⟩ [] []
    [⟨2, "", ⟨2025, 1, 2, 9, 0, 0⟩, false, 0, "", false⟩]
    ⟨1, "", ⟨2025, 1, 2, 9, 0, 0⟩, false, 0, "", false⟩
    ⟨[⟨1, "", ⟨2025, 1, 2, 9, 0, 0⟩, false, 0, "", false⟩,
        ⟨2, "", ⟨2025, 1, 2, 9, 0, 0⟩, false, 0, "", false⟩],
      [⟨1, "", ⟨2025, 1, 2, 9, 0, 0⟩, false, 0, "", false⟩,
        ⟨2, "", ⟨2025, 1, 2, 9, 0, 0⟩, false, 0, "", false⟩],
      [], []⟩
    ⟨[⟨1, "", ⟨2025, 1, 2, 9, 0, 0⟩, false, 0, "", false⟩,
        ⟨2, "", ⟨2025, 1, 2, 9, 0, 0⟩, false, 0, "", false⟩],
      [⟨1, "", ⟨2025, 1, 2, 9, 0, 0⟩, false, 0, "", false⟩,
        ⟨2, "", ⟨2025, 1, 2, 9, 0, 0⟩, false, 0, "", false⟩],
      [⟨1, "", ⟨2025, 1, 2, 9, 0, 0⟩, false, 0, "", false⟩], []⟩
    (by decide) rfl rfl).1

/-- C1 divergence: a cycle whose only due reminder is recurring
(interval 1, unit days) queues it exactly once and the recurrence
computation yields the old time plus one day, but the persisted row
still carries the old `remind_time`: the re-arming `UPDATE` runs inside
the implicit transaction that only the one-shot branch ever commits,
and `conn.close()` discards it. -/
theorem claim_C1_code_divergence :
    (runCycle (fun _ => false)
        [⟨1, "", ⟨2025, 1, 2, 9, 59, 59⟩, true, 1, "days", false⟩]
        ⟨2025, 1, 2, 10, 0, 0⟩ []).queue =
      [⟨1, "", ⟨2025, 1, 2, 9, 59, 59⟩, true, 1, "days", false⟩] ∧
    updateRecurringReminder ⟨2025, 1, 2, 9, 59, 59⟩ 1 "days" =
      RearmResult.updated ⟨2025, 1, 3, 9, 59, 59⟩ ∧
    (runCycle (fun _ => false)
        [⟨1, "", ⟨2025, 1, 2, 9, 59, 59⟩, true, 1, "days", false⟩]
        ⟨2025, 1, 2, 10, 0, 0⟩ []).committed =
      [⟨1, "", ⟨2025, 1, 2, 9, 59, 59⟩, true, 1, "days", false⟩] := by
  refine ⟨by decide, by decide, by decide⟩

/-- C3 counterexample: a due recurring reminder with the unsupported
unit "years" is handled as a silent no-op, not a reported error: the
dispatch falls through to the bare `return`, the cycle completes
normally and logs nothing. -/
theorem claim_C3_counterexample :
    updateRecurringReminder ⟨2025, 1, 1, 0, 0, 0⟩ 1 "years" =
      RearmResult.skipped ∧
    (runCycle (fun _ => false)
        [⟨3, "", ⟨2025, 1, 1, 0, 0, 0⟩, true, 1, "years", false⟩]
        ⟨2025, 1, 1, 0, 0, 1⟩ []).log = [] ∧
    (runCycle (fun _ => false)
        [⟨3, "", ⟨2025, 1, 1, 0, 0, 0⟩, true, 1, "years", false⟩]
        ⟨2025, 1, 1, 0, 0, 1⟩ []).committed =
      [⟨3, "", ⟨2025, 1, 1, 0, 0, 0⟩, true, 1, "years", false⟩] := by
  refine ⟨by decide, by decide, by decide⟩

/-- C3 as amended: an unrecognized `recurring_unit` makes
`update_recurring_reminder` return without executing any `UPDATE` and
without raising or reporting anything; the reminder is still delivered,
is not marked completed, is not re-armed, and the iteration ends
normally so the cycle continues with its siblings. -/
theorem claim_C3_amended (fail : Nat → Bool) (s : SchedSt) (r : Reminder)
    (hr : r.isRecurring = true)
    (hu : ¬ (r.recurringUnit = "minutes" ∨ r.recurringUnit = "hours" ∨
      r.recurringUnit = "days" ∨ r.recurringUnit = "weeks" ∨
      r.recurringUnit = "months")) :
    updateRecurringReminder r.remindTime r.recurringInterval
      r.recurringUnit = RearmResult.skipped ∧
    processOne fail s r = Except.ok { s with queue := s.queue ++ [r] } := by
  push_neg at hu
  obtain ⟨h1, h2, h3, h4, h5⟩ := hu
  have hskip : updateRecurringReminder r.remindTime r.recurringInterval
      r.recurringUnit = RearmResult.skipped := by
    unfold updateRecurringReminder
    rw [if_neg h1, if_neg h2, if_neg h3, if_neg h4, if_neg h5]
  exact ⟨hskip, processOne_rec_skip fail s r hr hskip⟩

/-- Witness for C3 as amended at the unit "years". -/
theorem claim_C3_witness :
    updateRecurringReminder ⟨2026, 5, 1, 8, 0, 0⟩ 2 "years" =
      RearmResult.skipped ∧
    processOne (fun _ => false) ⟨[], [], [], []⟩
        ⟨4, "", ⟨2026, 5, 1, 8, 0, 0⟩, true, 2, "years", false⟩ =
      Except.ok ⟨[], [],
        [⟨4, "", ⟨2026, 5, 1, 8, 0, 0⟩, true, 2, "years", false⟩], []⟩ :=
  claim_C3_amended (fun _ => false) ⟨[], [], [], []⟩
    ⟨4, "", ⟨2026, 5, 1, 8, 0, 0⟩, true, 2, "years", false⟩
    rfl (by decide)

/-- C9: a consumer tick that finds the queue empty performs no work:
no reminder is presented and no list refresh is triggered. -/
theorem claim_C9 : processReminderQueue [] = ([], 0) := rfl
